import Mathlib

/-!
Verification of `src/db/init_sqlite.py`, the one-shot SQLite bootstrap tool.

The script is shallowly embedded: the external world (initial filesystem
state plus the outcome of each fallible external call — `os.makedirs`,
`open`/`read`, `sqlite3.connect`, `executescript`, `commit`, `os.remove`)
is a `World` record, and `main` is a pure Lean function from the two
environment settings and the world to a `RunResult` holding the process
exit code, the final filesystem and the ordered trace of observable
events (stdout lines, stderr lines, and external operations).
-/

namespace InitSqlite

/-- A filesystem object: a regular file with byte content, a directory, or
any other kind of object (socket, device, ...). `os.path.exists` is true
for all of them. -/
inductive FSObj : Type where
  | file (content : List Nat) : FSObj
  | dir : FSObj
  | other : FSObj
deriving DecidableEq, Repr

/-- A filesystem: a finite association of paths to objects. -/
abbrev FS : Type := List (String × FSObj)

/-- Look up the object at a path. -/
def fsLookup : FS → String → Option FSObj
  | [], _ => none
  | (q, o) :: rest, p => if q = p then some o else fsLookup rest p

/-- `os.path.exists`: is there any object at the path? -/
def fsExists (fs : FS) (p : String) : Bool :=
  (fsLookup fs p).isSome

/-- `os.remove`: delete the entry at a path (when it succeeds). -/
def fsRemove : FS → String → FS
  | [], _ => []
  | (q, o) :: rest, p => if q = p then fsRemove rest p else (q, o) :: fsRemove rest p

/-- Place an object at a path, replacing any previous object there. -/
def fsInsert (fs : FS) (p : String) (o : FSObj) : FS :=
  (p, o) :: fsRemove fs p

/-- Is the object at the path a regular file? -/
def isFileAt (fs : FS) (p : String) : Bool :=
  match fsLookup fs p with
  | some (FSObj.file _) => true
  | _ => false

/-- `os.path.dirname` (POSIX): the prefix of the path up to the last
slash, with trailing slashes stripped unless the result is all slashes. -/
def dirname (p : String) : String :=
  let head := (p.data.reverse.dropWhile (fun c => c ≠ '/')).reverse
  if head.isEmpty || head.all (fun c => c = '/') then String.mk head
  else String.mk ((head.reverse.dropWhile (fun c => c = '/')).reverse)

/-- The chain of directories `os.makedirs` creates for a target: the
target itself and its successive `dirname`s, until the name is empty or
stops changing. Fuel bounds the recursion. -/
def ancestorChain : Nat → String → List String
  | 0, _ => []
  | Nat.succ fuel, d =>
    if d = "" then []
    else d :: (if dirname d = d then [] else ancestorChain fuel (dirname d))

/-- Directory chain of a path, with enough fuel (each `dirname` step that
continues the chain shortens the string). -/
def mkChain (d : String) : List String :=
  ancestorChain (d.length + 1) d

/-- `os.makedirs(d, exist_ok=True)` on success: insert a directory object
at every path of the chain that is not yet present. -/
def fsMakedirs (fs : FS) : List String → FS
  | [] => fs
  | p :: rest =>
    let fs1 := fsMakedirs fs rest
    if fsExists fs1 p then fs1 else fsInsert fs1 p FSObj.dir

/-- Outcome of a fallible engine call: a `sqlite3.Error`, or some other
unexpected exception. -/
inductive StepErr : Type where
  | sqliteErr : StepErr
  | otherErr : StepErr
deriving DecidableEq, Repr

/-- Outcome of a failed schema read: an `IOError`/`OSError`, or some other
unexpected exception. -/
inductive ReadErr : Type where
  | ioErr : ReadErr
  | otherErr : ReadErr
deriving DecidableEq, Repr

deriving instance DecidableEq for Except

/-- The external world a run interacts with: the initial filesystem and
the outcome of each external call, consulted in program order when (and
only when) the corresponding call is reached. -/
structure World : Type where
  fs : FS
  makedirsOk : Bool
  readRes : Except ReadErr String
  connectRes : Option StepErr
  execRes : Option StepErr
  commitRes : Option StepErr
  removeOk : Bool
deriving DecidableEq, Repr

/-- Observable events of a run, in order: stdout lines, stderr lines, and
the external operations performed. -/
inductive Event : Type where
  | msgOut (s : String) : Event
  | msgErr (s : String) : Event
  | opMakedirs (d : String) : Event
  | opRead (p : String) : Event
  | opConnect (p : String) : Event
  | opExec : Event
  | opCommit : Event
  | opClose : Event
  | opRemove (p : String) : Event
deriving DecidableEq, Repr

/-- Result of a run: process exit code, final filesystem, event trace. -/
structure RunResult : Type where
  exitCode : Nat
  fs : FS
  trace : List Event
deriving DecidableEq, Repr

/-- Python truthiness of `os.environ.get(...)`: falsy when the variable is
unset or set to the empty string. -/
def pyFalsy : Option String → Bool
  | none => true
  | some s => s.isEmpty

def msgNoDbPath : String := "Error: DB_PATH environment variable not set."

def msgNoSchemaPath : String := "Error: SCHEMA_PATH environment variable not set."

def msgExists (d : String) : String :=
  "Database file already exists at " ++ d ++ ". Skipping initialization."

def msgNotFound (d : String) : String :=
  "Database file not found at " ++ d ++ ". Initializing..."

def msgEnsured (d : String) : String :=
  "Ensured directory " ++ d ++ " exists."

def msgMkdirErr (d : String) : String :=
  "Error creating directory " ++ d ++ ":"

def msgReading (p : String) : String :=
  "Reading schema from " ++ p ++ "..."

def msgConnecting (d : String) : String :=
  "Connecting to and creating database at " ++ d ++ "..."

def msgExecuting : String := "Executing schema script..."

def msgCommitting : String := "Committing changes..."

def msgSuccess : String := "Database initialized successfully."

def msgSqliteErr : String := "SQLite error during initialization:"

def msgFileErr : String := "File error:"

def msgUnexpected : String := "An unexpected error occurred:"

def msgRemovedPartial (d : String) : String :=
  "Removed partially created database file " ++ d ++ "."

def msgRemoveErrPartial (d : String) : String :=
  "Error removing partially created database file " ++ d ++ ":"

def msgRemovedCorrupt (d : String) : String :=
  "Removed potentially corrupted database file " ++ d ++ "."

def msgRemoveErrCorrupt (d : String) : String :=
  "Error removing potentially corrupted database file " ++ d ++ ":"

def msgClosed : String := "Database connection closed."

/-- Events appended by the `except sqlite3.Error` / `except Exception`
handlers: the diagnostic, a close of the connection if one is open, the
best-effort removal of the database file if one exists, and the `finally`
block (second close plus its stdout line) when the connection is open. -/
def cleanupSuffix (d : String) (fs : FS) (removeOk connOpen : Bool)
    (errMsg remMsg remErrMsg : String) : List Event :=
  [Event.msgErr errMsg]
    ++ (if connOpen then [Event.opClose] else [])
    ++ (if fsExists fs d then
          [Event.opRemove d, Event.msgErr (if removeOk then remMsg else remErrMsg)]
        else [])
    ++ (if connOpen then [Event.opClose, Event.msgOut msgClosed] else [])

/-- Filesystem after the best-effort cleanup: the entry at `d` is erased
exactly when it exists and `os.remove` succeeds. -/
def cleanupFs (d : String) (fs : FS) (removeOk : Bool) : FS :=
  if fsExists fs d && removeOk then fsRemove fs d else fs

/-- The whole error-handler path: exit code 1, cleaned-up filesystem, and
the trace extended by the handler events. -/
def cleanup (d : String) (fs : FS) (removeOk connOpen : Bool)
    (errMsg remMsg remErrMsg : String) (tr : List Event) : RunResult :=
  { exitCode := 1
    fs := cleanupFs d fs removeOk
    trace := tr ++ cleanupSuffix d fs removeOk connOpen errMsg remMsg remErrMsg }

/-- The `try` block of `main` (schema read, connect, executescript,
commit) together with its `except`/`finally` handlers, entered with the
filesystem `fs` as left by the directory-creation step. -/
def mainTry (db_path schema_path : String) (fs : FS) (w : World)
    (tr0 : List Event) : RunResult :=
  let tr := tr0 ++ [Event.msgOut (msgReading schema_path), Event.opRead schema_path]
  match w.readRes with
  | Except.error ReadErr.ioErr =>
    { exitCode := 1, fs := fs, trace := tr ++ [Event.msgErr msgFileErr] }
  | Except.error ReadErr.otherErr =>
    cleanup db_path fs w.removeOk false msgUnexpected
      (msgRemovedCorrupt db_path) (msgRemoveErrCorrupt db_path) tr
  | Except.ok _schema_sql =>
    let tr := tr ++ [Event.msgOut (msgConnecting db_path), Event.opConnect db_path]
    match w.connectRes with
    | some StepErr.sqliteErr =>
      cleanup db_path fs w.removeOk false msgSqliteErr
        (msgRemovedPartial db_path) (msgRemoveErrPartial db_path) tr
    | some StepErr.otherErr =>
      cleanup db_path fs w.removeOk false msgUnexpected
        (msgRemovedCorrupt db_path) (msgRemoveErrCorrupt db_path) tr
    | none =>
      let fs1 := fsInsert fs db_path (FSObj.file [])
      let tr := tr ++ [Event.msgOut msgExecuting, Event.opExec]
      match w.execRes with
      | some StepErr.sqliteErr =>
        cleanup db_path fs1 w.removeOk true msgSqliteErr
          (msgRemovedPartial db_path) (msgRemoveErrPartial db_path) tr
      | some StepErr.otherErr =>
        cleanup db_path fs1 w.removeOk true msgUnexpected
          (msgRemovedCorrupt db_path) (msgRemoveErrCorrupt db_path) tr
      | none =>
        let tr := tr ++ [Event.msgOut msgCommitting, Event.opCommit]
        match w.commitRes with
        | some StepErr.sqliteErr =>
          cleanup db_path fs1 w.removeOk true msgSqliteErr
            (msgRemovedPartial db_path) (msgRemoveErrPartial db_path) tr
        | some StepErr.otherErr =>
          cleanup db_path fs1 w.removeOk true msgUnexpected
            (msgRemovedCorrupt db_path) (msgRemoveErrCorrupt db_path) tr
        | none =>
          { exitCode := 0
            fs := fs1
            trace := tr ++ [Event.msgOut msgSuccess, Event.opClose,
                            Event.msgOut msgClosed] }

/-- The create path of `main`, reached when configuration is valid and no
object exists at `db_path`: ensure the parent directory (only when the
path has a directory part), then enter the `try` block. -/
def mainInit (db_path schema_path : String) (w : World) : RunResult :=
  let tr0 := [Event.msgOut (msgNotFound db_path)]
  let db_dir := dirname db_path
  if db_dir = "" then
    mainTry db_path schema_path w.fs w tr0
  else
    let tr1 := tr0 ++ [Event.opMakedirs db_dir]
    if w.makedirsOk then
      mainTry db_path schema_path (fsMakedirs w.fs (mkChain db_dir)) w
        (tr1 ++ [Event.msgOut (msgEnsured db_dir)])
    else
      { exitCode := 1, fs := w.fs, trace := tr1 ++ [Event.msgErr (msgMkdirErr db_dir)] }

/-- The embedded `main` of `src/db/init_sqlite.py`. -/
def main (dbPathO schemaPathO : Option String) (w : World) : RunResult :=
  if pyFalsy dbPathO then
    { exitCode := 1, fs := w.fs, trace := [Event.msgErr msgNoDbPath] }
  else if pyFalsy schemaPathO then
    { exitCode := 1, fs := w.fs, trace := [Event.msgErr msgNoSchemaPath] }
  else
    let db_path := dbPathO.getD ""
    let schema_path := schemaPathO.getD ""
    if fsExists w.fs db_path then
      { exitCode := 0, fs := w.fs, trace := [Event.msgOut (msgExists db_path)] }
    else
      mainInit db_path schema_path w

/-- Did the schema read succeed? -/
def readOk (w : World) : Bool :=
  match w.readRes with
  | Except.ok _ => true
  | Except.error _ => false

/-- Did every oracle consulted inside the `try` block succeed? -/
def tryOracles (w : World) : Bool :=
  readOk w && w.connectRes.isNone && w.execRes.isNone && w.commitRes.isNone

/-- Did every oracle on the create path succeed for target path `d`? -/
def successOracles (w : World) (d : String) : Bool :=
  (decide (dirname d = "") || w.makedirsOk) && tryOracles w

/-- The initialization operations of the linear pipeline (directory
creation, schema read, database open, script execution, commit, close). -/
def isInitOp : Event → Bool
  | Event.opMakedirs _ => true
  | Event.opRead _ => true
  | Event.opConnect _ => true
  | Event.opExec => true
  | Event.opCommit => true
  | Event.opClose => true
  | _ => false

/-- Concrete world: empty filesystem, everything succeeds. -/
def wAllOk : World :=
  { fs := [], makedirsOk := true,
    readRes := Except.ok "CREATE TABLE t (id INTEGER PRIMARY KEY);",
    connectRes := none, execRes := none, commitRes := none, removeOk := true }

/-- Concrete world: empty filesystem, the schema script fails at execution
with a `sqlite3.Error`, and the cleanup `os.remove` also fails. -/
def wExecFailNoRemove : World :=
  { fs := [], makedirsOk := true, readRes := Except.ok "NOT VALID SQL;",
    connectRes := none, execRes := some StepErr.sqliteErr, commitRes := none,
    removeOk := false }

/-- Concrete world: empty filesystem, the schema script fails at execution
with a `sqlite3.Error`, and the cleanup `os.remove` succeeds. -/
def wExecFailRemove : World :=
  { fs := [], makedirsOk := true, readRes := Except.ok "NOT VALID SQL;",
    connectRes := none, execRes := some StepErr.sqliteErr, commitRes := none,
    removeOk := true }

/-- Concrete world: empty filesystem, the schema read fails with an
`IOError`. -/
def wReadFail : World :=
  { fs := [], makedirsOk := true, readRes := Except.error ReadErr.ioErr,
    connectRes := none, execRes := none, commitRes := none, removeOk := true }

/-- Concrete world: one unrelated file present, directory creation
succeeds, the schema script fails at execution, removal succeeds. -/
def wFrame : World :=
  { fs := [("keep.txt", FSObj.file [1])], makedirsOk := true,
    readRes := Except.ok "NOT VALID SQL;", connectRes := none,
    execRes := some StepErr.sqliteErr, commitRes := none, removeOk := true }

theorem fsLookup_remove (fs : FS) (p q : String) :
    fsLookup (fsRemove fs p) q = if p = q then none else fsLookup fs q := by
  induction fs with
  | nil => simp [fsRemove, fsLookup]
  | cons hd tl ih =>
    obtain ⟨a, o⟩ := hd
    simp only [fsRemove, fsLookup]
    by_cases hap : a = p
    · subst hap
      simp only [if_pos rfl]
      by_cases haq : a = q
      · subst haq; simp [ih]
      · simp [haq, ih]
    · rw [if_neg hap]
      simp only [fsLookup]
      by_cases haq : a = q
      · have hpq : ¬ p = q := fun h => hap (haq.trans h.symm)
        simp [haq, hpq]
      · simp [haq, ih]

theorem fsExists_remove_self (fs : FS) (p : String) :
    fsExists (fsRemove fs p) p = false := by
  simp [fsExists, fsLookup_remove]

theorem fsExists_remove_ne (fs : FS) {p q : String} (h : p ≠ q) :
    fsExists (fsRemove fs p) q = fsExists fs q := by
  simp [fsExists, fsLookup_remove, h]

theorem fsLookup_insert_self (fs : FS) (p : String) (o : FSObj) :
    fsLookup (fsInsert fs p o) p = some o := by
  simp [fsInsert, fsLookup]

theorem fsLookup_insert_ne (fs : FS) {p q : String} (o : FSObj) (h : p ≠ q) :
    fsLookup (fsInsert fs p o) q = fsLookup fs q := by
  simp [fsInsert, fsLookup, h, fsLookup_remove]

theorem fsExists_insert_self (fs : FS) (p : String) (o : FSObj) :
    fsExists (fsInsert fs p o) p = true := by
  simp [fsExists, fsLookup_insert_self]

theorem fsExists_insert_mono (fs : FS) {q : String} (p : String) (o : FSObj)
    (h : fsExists fs q = true) : fsExists (fsInsert fs p o) q = true := by
  by_cases hpq : p = q
  · subst hpq; exact fsExists_insert_self fs p o
  · rw [fsExists, fsLookup_insert_ne fs o hpq]; exact h

theorem fsExists_makedirs_mono (fs : FS) (l : List String) {q : String}
    (h : fsExists fs q = true) : fsExists (fsMakedirs fs l) q = true := by
  induction l with
  | nil => exact h
  | cons p rest ih =>
    simp only [fsMakedirs]
    split
    · exact ih
    · exact fsExists_insert_mono _ p FSObj.dir ih

theorem fsExists_makedirs_of_mem (fs : FS) {l : List String} {q : String}
    (h : q ∈ l) : fsExists (fsMakedirs fs l) q = true := by
  induction l with
  | nil => cases h
  | cons p rest ih =>
    simp only [fsMakedirs]
    rcases List.mem_cons.mp h with hq | hq
    · subst hq
      split
      · assumption
      · exact fsExists_insert_self _ q FSObj.dir
    · split
      · exact ih hq
      · exact fsExists_insert_mono _ p FSObj.dir (ih hq)

theorem isFileAt_false_of_not_exists (fs : FS) {p : String}
    (h : fsExists fs p = false) : isFileAt fs p = false := by
  unfold fsExists at h
  unfold isFileAt
  cases hl : fsLookup fs p with
  | none => rfl
  | some o => rw [hl] at h; simp at h

theorem isFileAt_insert_dir_le (fs : FS) (p : String) {q : String}
    (h : isFileAt (fsInsert fs p FSObj.dir) q = true) : isFileAt fs q = true := by
  by_cases hpq : p = q
  · subst hpq
    unfold isFileAt at h
    rw [fsLookup_insert_self] at h
    simp at h
  · unfold isFileAt at h ⊢
    rwa [fsLookup_insert_ne fs FSObj.dir hpq] at h

theorem isFileAt_makedirs_le (fs : FS) (l : List String) {q : String}
    (h : isFileAt (fsMakedirs fs l) q = true) : isFileAt fs q = true := by
  induction l with
  | nil => exact h
  | cons p rest ih =>
    simp only [fsMakedirs] at h
    split at h
    · exact ih h
    · exact ih (isFileAt_insert_dir_le _ p h)

theorem isFileAt_remove_le (fs : FS) (p : String) {q : String}
    (h : isFileAt (fsRemove fs p) q = true) : isFileAt fs q = true := by
  unfold isFileAt at h ⊢
  rw [fsLookup_remove] at h
  by_cases hpq : p = q
  · rw [if_pos hpq] at h; simp at h
  · rwa [if_neg hpq] at h

theorem isFileAt_cleanupFs_le (d : String) (fs : FS) (r : Bool) {q : String}
    (h : isFileAt (cleanupFs d fs r) q = true) : isFileAt fs q = true := by
  unfold cleanupFs at h
  split at h
  · exact isFileAt_remove_le fs d h
  · exact h

theorem fsExists_cleanupFs_ne (d : String) (fs : FS) (r : Bool) {q : String}
    (h : d ≠ q) : fsExists (cleanupFs d fs r) q = fsExists fs q := by
  unfold cleanupFs
  split
  · exact fsExists_remove_ne fs h
  · rfl

theorem fsExists_cleanupFs_removed (d : String) (fs : FS) :
    fsExists (cleanupFs d fs true) d = false := by
  unfold cleanupFs
  rcases h : fsExists fs d with _ | _ <;> simp [h, fsExists_remove_self]

theorem opMakedirs_not_mem_cleanupSuffix (d p : String) (fs : FS) (r c : Bool)
    (m a b : String) : Event.opMakedirs p ∉ cleanupSuffix d fs r c m a b := by
  unfold cleanupSuffix
  cases c <;> cases h : fsExists fs d <;> simp [h]

theorem opRead_not_mem_cleanupSuffix (d p : String) (fs : FS) (r c : Bool)
    (m a b : String) : Event.opRead p ∉ cleanupSuffix d fs r c m a b := by
  unfold cleanupSuffix
  cases c <;> cases h : fsExists fs d <;> simp [h]

theorem opConnect_not_mem_cleanupSuffix (d p : String) (fs : FS) (r c : Bool)
    (m a b : String) : Event.opConnect p ∉ cleanupSuffix d fs r c m a b := by
  unfold cleanupSuffix
  cases c <;> cases h : fsExists fs d <;> simp [h]

theorem opExec_not_mem_cleanupSuffix (d : String) (fs : FS) (r c : Bool)
    (m a b : String) : Event.opExec ∉ cleanupSuffix d fs r c m a b := by
  unfold cleanupSuffix
  cases c <;> cases h : fsExists fs d <;> simp [h]

theorem opCommit_not_mem_cleanupSuffix (d : String) (fs : FS) (r c : Bool)
    (m a b : String) : Event.opCommit ∉ cleanupSuffix d fs r c m a b := by
  unfold cleanupSuffix
  cases c <;> cases h : fsExists fs d <;> simp [h]

theorem opClose_mem_cleanupSuffix (d : String) (fs : FS) (r : Bool)
    (m a b : String) : Event.opClose ∈ cleanupSuffix d fs r true m a b := by
  unfold cleanupSuffix
  simp

theorem opRemove_mem_cleanupSuffix {d p : String} {fs : FS} {r c : Bool}
    {m a b : String} (h : Event.opRemove p ∈ cleanupSuffix d fs r c m a b) :
    p = d ∧ fsExists fs d = true := by
  unfold cleanupSuffix at h
  cases c <;> cases hfs : fsExists fs d <;> rw [hfs] at h <;> simp_all

theorem remErrMsg_mem_cleanupSuffix (d : String) (fs : FS) (c : Bool)
    (m a b : String) (hfs : fsExists fs d = true) :
    Event.msgErr b ∈ cleanupSuffix d fs false c m a b := by
  unfold cleanupSuffix
  cases c <;> simp [hfs]

theorem mainTry_exitCode (d sp : String) (fs : FS) (w : World) (tr : List Event) :
    (mainTry d sp fs w tr).exitCode = if tryOracles w then 0 else 1 := by
  obtain ⟨fs0, mk, rr, cr, er, cmr, rm⟩ := w
  rcases rr with e | s
  · cases e <;> simp [mainTry, tryOracles, readOk, cleanup]
  · rcases cr with _ | c
    · rcases er with _ | e2
      · rcases cmr with _ | c2
        · simp [mainTry, tryOracles, readOk, cleanup]
        · cases c2 <;> simp [mainTry, tryOracles, readOk, cleanup]
      · cases e2 <;> simp [mainTry, tryOracles, readOk, cleanup]
    · cases c <;> simp [mainTry, tryOracles, readOk, cleanup]

theorem mainInit_exitCode (d sp : String) (w : World) :
    (mainInit d sp w).exitCode = if successOracles w d then 0 else 1 := by
  unfold mainInit successOracles
  by_cases hdir : dirname d = ""
  · simp [hdir, mainTry_exitCode]
  · cases hmk : w.makedirsOk
    · simp [hdir, hmk]
    · simp [hdir, hmk, mainTry_exitCode]

/-- C1: Idempotence of the bootstrap. When both settings are non-empty and
an object already exists at the database path, the run exits 0, leaves the
whole filesystem — hence the bytes of that file — unmodified, and emits
only the informational skip message, regardless of every oracle concerning
the schema path (its content, validity, or existence). -/
theorem idempotent_skip (d sp : String) (w : World)
    (hd : d.isEmpty = false) (hsp : sp.isEmpty = false)
    (hex : fsExists w.fs d = true) :
    main (some d) (some sp) w =
      { exitCode := 0, fs := w.fs, trace := [Event.msgOut (msgExists d)] } := by
  simp [main, pyFalsy, hd, hsp, hex]

/-- Witness for C1 at a concrete world: the database file exists and the
schema file is absent and unreadable, yet the run is a successful no-op. -/
theorem idempotent_skip_witness :
    ("app.db" : String).isEmpty = false ∧ ("missing.sql" : String).isEmpty = false ∧
    fsExists [(("app.db" : String), FSObj.file [7, 7])] "app.db" = true ∧
    main (some "app.db") (some "missing.sql")
        { fs := [("app.db", FSObj.file [7, 7])], makedirsOk := false,
          readRes := Except.error ReadErr.ioErr, connectRes := some StepErr.sqliteErr,
          execRes := some StepErr.otherErr, commitRes := some StepErr.sqliteErr,
          removeOk := false } =
      { exitCode := 0, fs := [("app.db", FSObj.file [7, 7])],
        trace := [Event.msgOut (msgExists "app.db")] } :=
  ⟨rfl, rfl, by decide,
    idempotent_skip "app.db" "missing.sql" _ rfl rfl (by decide)⟩

/-- C9: The existence check accepts any filesystem object. When a directory
or any other non-file object sits at the database path, the run is treated
as already initialized: exit 0, filesystem untouched, only the skip
message, and no open/validate/modify of the object. -/
theorem skip_any_object (d sp : String) (w : World)
    (hd : d.isEmpty = false) (hsp : sp.isEmpty = false)
    (ho : fsLookup w.fs d = some FSObj.dir ∨ fsLookup w.fs d = some FSObj.other) :
    main (some d) (some sp) w =
      { exitCode := 0, fs := w.fs, trace := [Event.msgOut (msgExists d)] } := by
  have hex : fsExists w.fs d = true := by
    rcases ho with h | h <;> simp [fsExists, h]
  simp [main, pyFalsy, hd, hsp, hex]

/-- Witness for C9 at a concrete world: a directory at the database path is
treated as already-initialized. -/
theorem skip_any_object_witness :
    ("app.db" : String).isEmpty = false ∧ ("s.sql" : String).isEmpty = false ∧
    (fsLookup [(("app.db" : String), FSObj.dir)] "app.db" = some FSObj.dir ∨
      fsLookup [(("app.db" : String), FSObj.dir)] "app.db" = some FSObj.other) ∧
    main (some "app.db") (some "s.sql")
        { fs := [("app.db", FSObj.dir)], makedirsOk := true,
          readRes := Except.ok "CREATE TABLE t (id INTEGER);", connectRes := none,
          execRes := none, commitRes := none, removeOk := true } =
      { exitCode := 0, fs := [("app.db", FSObj.dir)],
        trace := [Event.msgOut (msgExists "app.db")] } :=
  ⟨rfl, rfl, Or.inl (by decide),
    skip_any_object "app.db" "s.sql" _ rfl rfl (Or.inl (by decide))⟩

/-- C5: Configuration completeness. When either setting is unset or empty,
the run exits 1 having emitted exactly one diagnostic on the error stream,
with the filesystem untouched and no filesystem operation performed. -/
theorem config_guard (dbO spO : Option String) (w : World)
    (h : pyFalsy dbO = true ∨ pyFalsy spO = true) :
    main dbO spO w =
        { exitCode := 1, fs := w.fs, trace := [Event.msgErr msgNoDbPath] } ∨
    main dbO spO w =
        { exitCode := 1, fs := w.fs, trace := [Event.msgErr msgNoSchemaPath] } := by
  cases hdb : pyFalsy dbO
  · right
    rcases h with h | h
    · rw [hdb] at h; exact absurd h (by simp)
    · simp [main, hdb, h]
  · left
    simp [main, hdb]

/-- Witness for C5 at a concrete input: `DB_PATH` unset. -/
theorem config_guard_witness :
    (pyFalsy none = true ∨ pyFalsy (some "s.sql") = true) ∧
    (main none (some "s.sql")
          { fs := [], makedirsOk := true, readRes := Except.ok "x",
            connectRes := none, execRes := none, commitRes := none,
            removeOk := true } =
        { exitCode := 1, fs := [], trace := [Event.msgErr msgNoDbPath] } ∨
      main none (some "s.sql")
          { fs := [], makedirsOk := true, readRes := Except.ok "x",
            connectRes := none, execRes := none, commitRes := none,
            removeOk := true } =
        { exitCode := 1, fs := [], trace := [Event.msgErr msgNoSchemaPath] }) :=
  ⟨Or.inl rfl, config_guard none (some "s.sql") _ (Or.inl rfl)⟩

/-- C3: Exit-code contract. Every run exits 0 or 1, and it exits 0 exactly
when the configuration is complete and either an object already existed at
the database path (skip) or every step of the create path — directory
creation when needed, schema read, open, execute, commit — succeeded.
Every other run (configuration, filesystem, I/O, or engine failure) exits 1. -/
theorem exit_code_contract (dbO spO : Option String) (w : World) :
    ((main dbO spO w).exitCode = 0 ∨ (main dbO spO w).exitCode = 1) ∧
    ((main dbO spO w).exitCode = 0 ↔
      pyFalsy dbO = false ∧ pyFalsy spO = false ∧
        (fsExists w.fs (dbO.getD "") = true ∨
          successOracles w (dbO.getD "") = true)) := by
  cases hdb : pyFalsy dbO
  · cases hsp : pyFalsy spO
    · cases hex : fsExists w.fs (dbO.getD "")
      · have h1 : main dbO spO w = mainInit (dbO.getD "") (spO.getD "") w := by
          simp [main, hdb, hsp, hex]
        rw [h1, mainInit_exitCode]
        cases hso : successOracles w (dbO.getD "") <;> simp [hso, hex]
      · have h1 : main dbO spO w =
            { exitCode := 0, fs := w.fs,
              trace := [Event.msgOut (msgExists (dbO.getD ""))] } := by
          simp [main, hdb, hsp, hex]
        rw [h1]
        simp [hex]
    · simp [main, hdb, hsp]
  · simp [main, hdb]

theorem mainTry_engine_rollback (d sp s : String) (fs : FS) (w : World)
    (tr : List Event) (hr : w.readRes = Except.ok s) (hc : w.connectRes = none)
    (he : w.execRes = some StepErr.sqliteErr ∨
      (w.execRes = none ∧ w.commitRes = some StepErr.sqliteErr)) :
    (mainTry d sp fs w tr).exitCode = 1 ∧
      (w.removeOk = true → fsExists (mainTry d sp fs w tr).fs d = false) := by
  rcases he with he | ⟨he1, he2⟩
  · constructor
    · simp [mainTry, hr, hc, he, cleanup]
    · intro hrm
      simp [mainTry, hr, hc, he, cleanup, hrm, fsExists_cleanupFs_removed]
  · constructor
    · simp [mainTry, hr, hc, he1, he2, cleanup]
    · intro hrm
      simp [mainTry, hr, hc, he1, he2, cleanup, hrm, fsExists_cleanupFs_removed]

/-- C2 counterexample: with no pre-existing file at the database path and a
schema whose execution fails with a `sqlite3.Error`, but whose best-effort
cleanup `os.remove` itself fails, the run exits 1 yet a file is still
present at the database path afterwards — refuting the claim that no file
exists at `DB_PATH` after every engine-error run. -/
theorem rollback_counterexample :
    fsExists wExecFailNoRemove.fs "app.db" = false ∧
    wExecFailNoRemove.execRes = some StepErr.sqliteErr ∧
    (main (some "app.db") (some "s.sql") wExecFailNoRemove).exitCode = 1 ∧
    fsExists (main (some "app.db") (some "s.sql") wExecFailNoRemove).fs "app.db"
      = true := by decide

/-- C2 (amended): with no pre-existing object at the database path, when
schema execution or commit fails with a `sqlite3.Error`, the run exits 1;
and provided the best-effort deletion succeeds, no file exists at the
database path afterwards. -/
theorem rollback_on_engine_error (d sp : String) (w : World)
    (hd : d.isEmpty = false) (hsp : sp.isEmpty = false)
    (hex : fsExists w.fs d = false)
    (hmk : dirname d = "" ∨ w.makedirsOk = true)
    (hr : ∃ s, w.readRes = Except.ok s)
    (hc : w.connectRes = none)
    (he : w.execRes = some StepErr.sqliteErr ∨
      (w.execRes = none ∧ w.commitRes = some StepErr.sqliteErr)) :
    (main (some d) (some sp) w).exitCode = 1 ∧
      (w.removeOk = true →
        fsExists (main (some d) (some sp) w).fs d = false) := by
  obtain ⟨s, hrs⟩ := hr
  have hmain : main (some d) (some sp) w = mainInit d sp w := by
    simp [main, pyFalsy, hd, hsp, hex]
  rw [hmain]
  unfold mainInit
  by_cases hdir : dirname d = ""
  · simp only [hdir, if_pos]
    exact mainTry_engine_rollback d sp s w.fs w _ hrs hc he
  · have hmkT : w.makedirsOk = true := by
      rcases hmk with h | h
      · exact absurd h hdir
      · exact h
    simp only [hdir, hmkT, if_neg, if_pos, ite_true, ite_false]
    exact mainTry_engine_rollback d sp s _ w _ hrs hc he

/-- Witness for the amended C2 at a concrete world: execution fails, the
removal succeeds, the run exits 1 and the database file is gone. -/
theorem rollback_on_engine_error_witness :
    ("app.db" : String).isEmpty = false ∧ ("s.sql" : String).isEmpty = false ∧
    fsExists wExecFailRemove.fs "app.db" = false ∧
    (dirname "app.db" = "" ∨ wExecFailRemove.makedirsOk = true) ∧
    wExecFailRemove.connectRes = none ∧
    (wExecFailRemove.execRes = some StepErr.sqliteErr ∨
      (wExecFailRemove.execRes = none ∧
        wExecFailRemove.commitRes = some StepErr.sqliteErr)) ∧
    (main (some "app.db") (some "s.sql") wExecFailRemove).exitCode = 1 ∧
    fsExists (main (some "app.db") (some "s.sql") wExecFailRemove).fs "app.db"
      = false :=
  ⟨rfl, rfl, by decide, Or.inl (by decide), rfl, Or.inl rfl,
    (rollback_on_engine_error "app.db" "s.sql" wExecFailRemove rfl rfl
        (by decide) (Or.inl (by decide)) ⟨_, rfl⟩ rfl (Or.inl rfl)).1,
    (rollback_on_engine_error "app.db" "s.sql" wExecFailRemove rfl rfl
        (by decide) (Or.inl (by decide)) ⟨_, rfl⟩ rfl (Or.inl rfl)).2 rfl⟩

theorem isFileAt_makedirs_false (fs : FS) (l : List String) {q : String}
    (h : isFileAt fs q = false) : isFileAt (fsMakedirs fs l) q = false := by
  cases hres : isFileAt (fsMakedirs fs l) q
  · rfl
  · exact absurd (isFileAt_makedirs_le fs l hres) (by simp [h])

theorem isFileAt_cleanupFs_false (d : String) (fs : FS) (r : Bool) {q : String}
    (h : isFileAt fs q = false) : isFileAt (cleanupFs d fs r) q = false := by
  cases hres : isFileAt (cleanupFs d fs r) q
  · rfl
  · exact absurd (isFileAt_cleanupFs_le d fs r hres) (by simp [h])

theorem mainTry_read_fail (d sp : String) (fs : FS) (w : World) (tr : List Event)
    (e : ReadErr) (hre : w.readRes = Except.error e)
    (htr : Event.opConnect d ∉ tr)
    (hbase : isFileAt fs d = false) :
    (mainTry d sp fs w tr).exitCode = 1 ∧
    isFileAt (mainTry d sp fs w tr).fs d = false ∧
    Event.opConnect d ∉ (mainTry d sp fs w tr).trace := by
  cases e
  · refine ⟨by simp [mainTry, hre], by simp [mainTry, hre, hbase], ?_⟩
    simp [mainTry, hre, List.mem_append, htr]
  · refine ⟨by simp [mainTry, hre, cleanup], ?_, ?_⟩
    · have hfs : (mainTry d sp fs w tr).fs = cleanupFs d fs w.removeOk := by
        simp [mainTry, hre, cleanup]
      rw [hfs]
      exact isFileAt_cleanupFs_false d fs w.removeOk hbase
    · simp [mainTry, hre, cleanup, List.mem_append, htr,
        opConnect_not_mem_cleanupSuffix]

/-- C4: Missing or unreadable schema file. With valid configuration, no
pre-existing object at the database path, and a successful (or skipped)
directory step, a failing schema read makes the run exit 1, leaves no
regular file at the database path (only directory objects can have been
created), and never opens the database. -/
theorem missing_schema_no_artifact (d sp : String) (w : World)
    (hd : d.isEmpty = false) (hsp : sp.isEmpty = false)
    (hex : fsExists w.fs d = false)
    (hmk : dirname d = "" ∨ w.makedirsOk = true)
    (hr : ∃ e, w.readRes = Except.error e) :
    (main (some d) (some sp) w).exitCode = 1 ∧
    isFileAt (main (some d) (some sp) w).fs d = false ∧
    Event.opConnect d ∉ (main (some d) (some sp) w).trace := by
  obtain ⟨e, hre⟩ := hr
  have hbase : isFileAt w.fs d = false := isFileAt_false_of_not_exists w.fs hex
  have hmain : main (some d) (some sp) w = mainInit d sp w := by
    simp [main, pyFalsy, hd, hsp, hex]
  rw [hmain]
  unfold mainInit
  by_cases hdir : dirname d = ""
  · simp only [hdir, if_pos]
    exact mainTry_read_fail d sp w.fs w _ e hre (by simp) hbase
  · have hmkT : w.makedirsOk = true := by
      rcases hmk with h | h
      · exact absurd h hdir
      · exact h
    simp only [hdir, hmkT, if_neg, if_pos, ite_true, ite_false]
    exact mainTry_read_fail d sp _ w _ e hre (by simp)
      (isFileAt_makedirs_false w.fs _ hbase)

/-- Witness for C4 at a concrete world: the schema read fails with an
`IOError`; exit 1, no file at the database path, database never opened. -/
theorem missing_schema_no_artifact_witness :
    ("data/app.db" : String).isEmpty = false ∧ ("s.sql" : String).isEmpty = false ∧
    fsExists wReadFail.fs "data/app.db" = false ∧
    (dirname "data/app.db" = "" ∨ wReadFail.makedirsOk = true) ∧
    (∃ e, wReadFail.readRes = Except.error e) ∧
    (main (some "data/app.db") (some "s.sql") wReadFail).exitCode = 1 ∧
    isFileAt (main (some "data/app.db") (some "s.sql") wReadFail).fs "data/app.db"
      = false ∧
    Event.opConnect "data/app.db" ∉
      (main (some "data/app.db") (some "s.sql") wReadFail).trace := by
  refine ⟨rfl, rfl, by decide, Or.inr rfl, ⟨ReadErr.ioErr, rfl⟩, ?_⟩
  have h := missing_schema_no_artifact "data/app.db" "s.sql" wReadFail rfl rfl
    (by decide) (Or.inr rfl) ⟨ReadErr.ioErr, rfl⟩
  exact ⟨h.1, h.2.1, h.2.2⟩

theorem mainTry_connect_close (d sp p : String) (fs : FS) (w : World)
    (tr : List Event) (hc : w.connectRes = none)
    (htr : Event.opConnect p ∉ tr)
    (hm : Event.opConnect p ∈ (mainTry d sp fs w tr).trace) :
    Event.opClose ∈ (mainTry d sp fs w tr).trace := by
  rcases hre : w.readRes with e | s
  · cases e
    · simp [mainTry, hre, List.mem_append, htr] at hm
    · simp [mainTry, hre, cleanup, List.mem_append, htr,
        opConnect_not_mem_cleanupSuffix] at hm
  · rcases her : w.execRes with _ | e2
    · rcases hcm : w.commitRes with _ | c2
      · simp [mainTry, hre, hc, her, hcm, List.mem_append]
      · cases c2 <;>
          simp [mainTry, hre, hc, her, hcm, cleanup, List.mem_append,
            opClose_mem_cleanupSuffix]
    · cases e2 <;>
        simp [mainTry, hre, hc, her, cleanup, List.mem_append,
          opClose_mem_cleanupSuffix]

/-- C6: Connection release. On every run in which the database connection
is opened (the `sqlite3.connect` call appears in the trace and succeeded),
a close of the connection also appears in the trace before the process
terminates — on the success path and on both error-handler paths. -/
theorem connection_release (dbO spO : Option String) (w : World) (p : String)
    (hc : w.connectRes = none)
    (hm : Event.opConnect p ∈ (main dbO spO w).trace) :
    Event.opClose ∈ (main dbO spO w).trace := by
  cases hdb : pyFalsy dbO
  · cases hsp : pyFalsy spO
    · cases hex : fsExists w.fs (dbO.getD "")
      · have hmain : main dbO spO w = mainInit (dbO.getD "") (spO.getD "") w := by
          simp [main, hdb, hsp, hex]
        rw [hmain] at hm ⊢
        unfold mainInit at hm ⊢
        by_cases hdir : dirname (dbO.getD "") = ""
        · simp only [hdir, if_pos] at hm ⊢
          exact mainTry_connect_close _ _ p w.fs w _ hc (by simp) hm
        · cases hmk : w.makedirsOk
          · simp only [hdir, hmk, if_neg, ite_false, Bool.false_eq_true] at hm ⊢
            simp at hm
          · simp only [hdir, hmk, if_neg, ite_false, ite_true] at hm ⊢
            exact mainTry_connect_close _ _ p _ w _ hc (by simp) hm
      · simp [main, hdb, hsp, hex] at hm
    · simp [main, hdb, hsp] at hm
  · simp [main, hdb] at hm

/-- Witness for C6 at a concrete world: the fully successful run opens the
connection and the trace contains the close. -/
theorem connection_release_witness :
    wAllOk.connectRes = none ∧
    Event.opConnect "data/app.db" ∈
      (main (some "data/app.db") (some "s.sql") wAllOk).trace ∧
    Event.opClose ∈ (main (some "data/app.db") (some "s.sql") wAllOk).trace :=
  ⟨rfl, by decide,
    connection_release (some "data/app.db") (some "s.sql") wAllOk "data/app.db"
      rfl (by decide)⟩

theorem mainTry_remove_err (d sp p : String) (fs : FS) (w : World)
    (tr : List Event) (hrm : w.removeOk = false)
    (htr : Event.opRemove p ∉ tr)
    (hm : Event.opRemove p ∈ (mainTry d sp fs w tr).trace) :
    (mainTry d sp fs w tr).exitCode = 1 ∧
      (Event.msgErr (msgRemoveErrPartial p) ∈ (mainTry d sp fs w tr).trace ∨
        Event.msgErr (msgRemoveErrCorrupt p) ∈ (mainTry d sp fs w tr).trace) := by
  rcases hre : w.readRes with e | s
  · cases e
    · simp [mainTry, hre, List.mem_append, htr] at hm
    · simp only [mainTry, hre, cleanup, hrm] at hm ⊢
      rcases List.mem_append.mp hm with h | h
      · exact absurd h (by simp [List.mem_append, htr])
      · obtain ⟨hpd, hfs⟩ := opRemove_mem_cleanupSuffix h
        subst hpd
        exact ⟨trivial, Or.inr (List.mem_append_right _
          (remErrMsg_mem_cleanupSuffix p fs false _ _ _ hfs))⟩
  · rcases hcr : w.connectRes with _ | c
    · rcases her : w.execRes with _ | e2
      · rcases hcm : w.commitRes with _ | c2
        · simp [mainTry, hre, hcr, her, hcm, List.mem_append, htr] at hm
        · cases c2
          · simp only [mainTry, hre, hcr, her, hcm, cleanup, hrm] at hm ⊢
            rcases List.mem_append.mp hm with h | h
            · exact absurd h (by simp [List.mem_append, htr])
            · obtain ⟨hpd, hfs⟩ := opRemove_mem_cleanupSuffix h
              subst hpd
              exact ⟨trivial, Or.inl (List.mem_append_right _
                (remErrMsg_mem_cleanupSuffix p _ true _ _ _ hfs))⟩
          · simp only [mainTry, hre, hcr, her, hcm, cleanup, hrm] at hm ⊢
            rcases List.mem_append.mp hm with h | h
            · exact absurd h (by simp [List.mem_append, htr])
            · obtain ⟨hpd, hfs⟩ := opRemove_mem_cleanupSuffix h
              subst hpd
              exact ⟨trivial, Or.inr (List.mem_append_right _
                (remErrMsg_mem_cleanupSuffix p _ true _ _ _ hfs))⟩
      · cases e2
        · simp only [mainTry, hre, hcr, her, cleanup, hrm] at hm ⊢
          rcases List.mem_append.mp hm with h | h
          · exact absurd h (by simp [List.mem_append, htr])
          · obtain ⟨hpd, hfs⟩ := opRemove_mem_cleanupSuffix h
            subst hpd
            exact ⟨trivial, Or.inl (List.mem_append_right _
              (remErrMsg_mem_cleanupSuffix p _ true _ _ _ hfs))⟩
        · simp only [mainTry, hre, hcr, her, cleanup, hrm] at hm ⊢
          rcases List.mem_append.mp hm with h | h
          · exact absurd h (by simp [List.mem_append, htr])
          · obtain ⟨hpd, hfs⟩ := opRemove_mem_cleanupSuffix h
            subst hpd
            exact ⟨trivial, Or.inr (List.mem_append_right _
              (remErrMsg_mem_cleanupSuffix p _ true _ _ _ hfs))⟩
    · cases c
      · simp only [mainTry, hre, hcr, cleanup, hrm] at hm ⊢
        rcases List.mem_append.mp hm with h | h
        · exact absurd h (by simp [List.mem_append, htr])
        · obtain ⟨hpd, hfs⟩ := opRemove_mem_cleanupSuffix h
          subst hpd
          exact ⟨trivial, Or.inl (List.mem_append_right _
            (remErrMsg_mem_cleanupSuffix p _ false _ _ _ hfs))⟩
      · simp only [mainTry, hre, hcr, cleanup, hrm] at hm ⊢
        rcases List.mem_append.mp hm with h | h
        · exact absurd h (by simp [List.mem_append, htr])
        · obtain ⟨hpd, hfs⟩ := opRemove_mem_cleanupSuffix h
          subst hpd
          exact ⟨trivial, Or.inr (List.mem_append_right _
            (remErrMsg_mem_cleanupSuffix p _ false _ _ _ hfs))⟩

/-- C8: Best-effort cleanup. On every run that attempts to delete the file
at the database path (the trace contains the removal operation) while the
deletion fails, a removal-failure diagnostic appears on the error stream
and the run still exits 1. -/
theorem cleanup_best_effort (dbO spO : Option String) (w : World) (p : String)
    (hrm : w.removeOk = false)
    (hm : Event.opRemove p ∈ (main dbO spO w).trace) :
    (main dbO spO w).exitCode = 1 ∧
      (Event.msgErr (msgRemoveErrPartial p) ∈ (main dbO spO w).trace ∨
        Event.msgErr (msgRemoveErrCorrupt p) ∈ (main dbO spO w).trace) := by
  cases hdb : pyFalsy dbO
  · cases hsp : pyFalsy spO
    · cases hex : fsExists w.fs (dbO.getD "")
      · have hmain : main dbO spO w = mainInit (dbO.getD "") (spO.getD "") w := by
          simp [main, hdb, hsp, hex]
        rw [hmain] at hm ⊢
        unfold mainInit at hm ⊢
        by_cases hdir : dirname (dbO.getD "") = ""
        · simp only [hdir, if_pos] at hm ⊢
          exact mainTry_remove_err _ _ p w.fs w _ hrm (by simp) hm
        · cases hmk : w.makedirsOk
          · simp only [hdir, hmk, if_neg, ite_false, Bool.false_eq_true] at hm ⊢
            simp at hm
          · simp only [hdir, hmk, if_neg, ite_false, ite_true] at hm ⊢
            exact mainTry_remove_err _ _ p _ w _ hrm (by simp) hm
      · simp [main, hdb, hsp, hex] at hm
    · simp [main, hdb, hsp] at hm
  · simp [main, hdb] at hm

/-- Witness for C8 at a concrete world: execution fails, removal fails, the
removal-failure diagnostic is in the trace and the exit code is still 1. -/
theorem cleanup_best_effort_witness :
    wExecFailNoRemove.removeOk = false ∧
    Event.opRemove "app.db" ∈
      (main (some "app.db") (some "s.sql") wExecFailNoRemove).trace ∧
    (main (some "app.db") (some "s.sql") wExecFailNoRemove).exitCode = 1 ∧
    (Event.msgErr (msgRemoveErrPartial "app.db") ∈
        (main (some "app.db") (some "s.sql") wExecFailNoRemove).trace ∨
      Event.msgErr (msgRemoveErrCorrupt "app.db") ∈
        (main (some "app.db") (some "s.sql") wExecFailNoRemove).trace) := by
  refine ⟨rfl, by decide, ?_⟩
  exact cleanup_best_effort (some "app.db") (some "s.sql") wExecFailNoRemove
    "app.db" rfl (by decide)

theorem readOk_iff {w : World} : readOk w = true ↔ ∃ s, w.readRes = Except.ok s := by
  unfold readOk
  rcases hre : w.readRes with e | s <;> simp [hre]

theorem successOracles_parts {w : World} {d : String}
    (h : successOracles w d = true) :
    (dirname d = "" ∨ w.makedirsOk = true) ∧ (∃ s, w.readRes = Except.ok s) ∧
      w.connectRes = none ∧ w.execRes = none ∧ w.commitRes = none := by
  unfold successOracles tryOracles at h
  rw [Bool.and_eq_true, Bool.and_eq_true, Bool.and_eq_true, Bool.and_eq_true,
    Bool.or_eq_true] at h
  obtain ⟨hmk, ⟨⟨hro, hc⟩, he⟩, hcm⟩ := h
  refine ⟨?_, readOk_iff.mp hro, Option.isNone_iff_eq_none.mp hc,
    Option.isNone_iff_eq_none.mp he, Option.isNone_iff_eq_none.mp hcm⟩
  rcases hmk with h1 | h1
  · exact Or.inl (of_decide_eq_true h1)
  · exact Or.inr h1

theorem mem_mkChain_self {d : String} (h : ¬ d = "") : d ∈ mkChain d := by
  unfold mkChain
  show d ∈ ancestorChain (d.length + 1) d
  unfold ancestorChain
  rw [if_neg h]
  exact List.mem_cons_self d _

theorem opMakedirs_mem_mainTry (d sp q : String) (fs : FS) (w : World)
    (tr : List Event)
    (hm : Event.opMakedirs q ∈ (mainTry d sp fs w tr).trace) :
    Event.opMakedirs q ∈ tr := by
  rcases hre : w.readRes with e | s
  · cases e <;>
      simp only [mainTry, hre, cleanup] at hm <;>
      simp [List.mem_append, opMakedirs_not_mem_cleanupSuffix] at hm <;>
      exact hm
  · rcases hcr : w.connectRes with _ | c
    · rcases her : w.execRes with _ | e2
      · rcases hcm : w.commitRes with _ | c2
        · simp [mainTry, hre, hcr, her, hcm, List.mem_append] at hm
          exact hm
        · cases c2 <;>
            simp [mainTry, hre, hcr, her, hcm, cleanup, List.mem_append,
              opMakedirs_not_mem_cleanupSuffix] at hm <;>
            exact hm
      · cases e2 <;>
          simp [mainTry, hre, hcr, her, cleanup, List.mem_append,
            opMakedirs_not_mem_cleanupSuffix] at hm <;>
          exact hm
    · cases c <;>
        simp [mainTry, hre, hcr, cleanup, List.mem_append,
          opMakedirs_not_mem_cleanupSuffix] at hm <;>
        exact hm

theorem mainTry_read_fail_absent (d sp : String) (fs : FS) (w : World)
    (tr : List Event) (e : ReadErr) (hre : w.readRes = Except.error e) :
    (Event.opConnect d ∉ tr → Event.opConnect d ∉ (mainTry d sp fs w tr).trace) ∧
    (Event.opExec ∉ tr → Event.opExec ∉ (mainTry d sp fs w tr).trace) ∧
    (Event.opCommit ∉ tr → Event.opCommit ∉ (mainTry d sp fs w tr).trace) := by
  cases e <;> refine ⟨?_, ?_, ?_⟩ <;> intro htr <;>
    simp [mainTry, hre, cleanup, List.mem_append, htr,
      opConnect_not_mem_cleanupSuffix, opExec_not_mem_cleanupSuffix,
      opCommit_not_mem_cleanupSuffix]

theorem mainTry_connect_fail_absent (d sp : String) (fs : FS) (w : World)
    (tr : List Event) (c : StepErr) (hc : w.connectRes = some c) :
    (Event.opExec ∉ tr → Event.opExec ∉ (mainTry d sp fs w tr).trace) ∧
    (Event.opCommit ∉ tr → Event.opCommit ∉ (mainTry d sp fs w tr).trace) := by
  rcases hre : w.readRes with e | s
  · cases e <;> refine ⟨?_, ?_⟩ <;> intro htr <;>
      simp [mainTry, hre, cleanup, List.mem_append, htr,
        opExec_not_mem_cleanupSuffix, opCommit_not_mem_cleanupSuffix]
  · cases c <;> refine ⟨?_, ?_⟩ <;> intro htr <;>
      simp [mainTry, hre, hc, cleanup, List.mem_append, htr,
        opExec_not_mem_cleanupSuffix, opCommit_not_mem_cleanupSuffix]

theorem mainTry_exec_fail_absent (d sp : String) (fs : FS) (w : World)
    (tr : List Event) (c : StepErr) (he : w.execRes = some c) :
    Event.opCommit ∉ tr → Event.opCommit ∉ (mainTry d sp fs w tr).trace := by
  rcases hre : w.readRes with e | s
  · cases e <;> intro htr <;>
      simp [mainTry, hre, cleanup, List.mem_append, htr,
        opCommit_not_mem_cleanupSuffix]
  · rcases hcr : w.connectRes with _ | c2
    · cases c <;> intro htr <;>
        simp [mainTry, hre, hcr, he, cleanup, List.mem_append, htr,
          opCommit_not_mem_cleanupSuffix]
    · cases c2 <;> intro htr <;>
        simp [mainTry, hre, hcr, cleanup, List.mem_append, htr,
          opCommit_not_mem_cleanupSuffix]

theorem mainTry_success_filter (d sp : String) (fs : FS) (w : World)
    (tr : List Event) (s : String) (hre : w.readRes = Except.ok s)
    (hc : w.connectRes = none) (he : w.execRes = none)
    (hcm : w.commitRes = none) :
    (mainTry d sp fs w tr).trace.filter isInitOp =
      tr.filter isInitOp ++ [Event.opRead sp, Event.opConnect d, Event.opExec,
        Event.opCommit, Event.opClose] := by
  have htrace : (mainTry d sp fs w tr).trace =
      tr ++ [Event.msgOut (msgReading sp), Event.opRead sp,
        Event.msgOut (msgConnecting d), Event.opConnect d,
        Event.msgOut msgExecuting, Event.opExec,
        Event.msgOut msgCommitting, Event.opCommit,
        Event.msgOut msgSuccess, Event.opClose, Event.msgOut msgClosed] := by
    simp [mainTry, hre, hc, he, hcm]
  rw [htrace, List.filter_append]
  rfl

theorem fsExists_cleanup_insert_ne (d : String) (fs : FS) (r : Bool)
    (o : FSObj) {q : String} (hq : d ≠ q) (hfs : fsExists fs q = true) :
    fsExists (cleanupFs d (fsInsert fs d o) r) q = true := by
  rw [fsExists_cleanupFs_ne d _ r hq]
  exact fsExists_insert_mono fs d o hfs

theorem mainTry_frame (d sp : String) (fs : FS) (w : World) (tr : List Event)
    {q : String} (hq : d ≠ q) (hfs : fsExists fs q = true) :
    fsExists (mainTry d sp fs w tr).fs q = true := by
  rcases hre : w.readRes with e | s
  · cases e
    · simpa [mainTry, hre] using hfs
    · have h : (mainTry d sp fs w tr).fs = cleanupFs d fs w.removeOk := by
        simp [mainTry, hre, cleanup]
      rw [h, fsExists_cleanupFs_ne d fs w.removeOk hq]
      exact hfs
  · rcases hcr : w.connectRes with _ | c
    · rcases her : w.execRes with _ | e2
      · rcases hcm : w.commitRes with _ | c2
        · have h : (mainTry d sp fs w tr).fs = fsInsert fs d (FSObj.file []) := by
            simp [mainTry, hre, hcr, her, hcm]
          rw [h]
          exact fsExists_insert_mono fs d _ hfs
        · cases c2 <;>
            · have h : (mainTry d sp fs w tr).fs =
                  cleanupFs d (fsInsert fs d (FSObj.file [])) w.removeOk := by
                simp [mainTry, hre, hcr, her, hcm, cleanup]
              rw [h]
              exact fsExists_cleanup_insert_ne d fs w.removeOk _ hq hfs
      · cases e2 <;>
          · have h : (mainTry d sp fs w tr).fs =
                cleanupFs d (fsInsert fs d (FSObj.file [])) w.removeOk := by
              simp [mainTry, hre, hcr, her, cleanup]
            rw [h]
            exact fsExists_cleanup_insert_ne d fs w.removeOk _ hq hfs
    · cases c <;>
        · have h : (mainTry d sp fs w tr).fs = cleanupFs d fs w.removeOk := by
            simp [mainTry, hre, hcr, cleanup]
          rw [h, fsExists_cleanupFs_ne d fs w.removeOk hq]
          exact hfs

/-- C7: Linear step order on the create path. With valid configuration and
no object at the database path: on a fully successful run the
initialization operations in the trace are exactly directory creation
(only when the path has a directory part), schema read, database open,
script execution, commit, close, in that order; and a failure at any step
prevents every later initialization step (directory-creation failure
prevents read/open/execute/commit, read failure prevents
open/execute/commit, open failure prevents execute/commit, execution
failure prevents commit). -/
theorem linear_step_order (d sp : String) (w : World)
    (hd : d.isEmpty = false) (hsp : sp.isEmpty = false)
    (hex : fsExists w.fs d = false) :
    (successOracles w d = true →
      (main (some d) (some sp) w).trace.filter isInitOp =
        (if dirname d = "" then [] else [Event.opMakedirs (dirname d)]) ++
          [Event.opRead sp, Event.opConnect d, Event.opExec, Event.opCommit,
            Event.opClose]) ∧
    (dirname d ≠ "" → w.makedirsOk = false →
      Event.opRead sp ∉ (main (some d) (some sp) w).trace ∧
      Event.opConnect d ∉ (main (some d) (some sp) w).trace ∧
      Event.opExec ∉ (main (some d) (some sp) w).trace ∧
      Event.opCommit ∉ (main (some d) (some sp) w).trace) ∧
    (∀ e, w.readRes = Except.error e →
      Event.opConnect d ∉ (main (some d) (some sp) w).trace ∧
      Event.opExec ∉ (main (some d) (some sp) w).trace ∧
      Event.opCommit ∉ (main (some d) (some sp) w).trace) ∧
    (∀ c, w.connectRes = some c →
      Event.opExec ∉ (main (some d) (some sp) w).trace ∧
      Event.opCommit ∉ (main (some d) (some sp) w).trace) ∧
    (∀ c, w.execRes = some c →
      Event.opCommit ∉ (main (some d) (some sp) w).trace) := by
  have hmain : main (some d) (some sp) w = mainInit d sp w := by
    simp [main, pyFalsy, hd, hsp, hex]
  rw [hmain]
  by_cases hdir : dirname d = ""
  · have hm2 : mainInit d sp w =
        mainTry d sp w.fs w [Event.msgOut (msgNotFound d)] := by
      simp [mainInit, hdir]
    rw [hm2]
    refine ⟨?_, ?_, ?_, ?_, ?_⟩
    · intro hso
      obtain ⟨-, ⟨s, hre⟩, hc, he, hcm⟩ := successOracles_parts hso
      rw [mainTry_success_filter d sp w.fs w _ s hre hc he hcm]
      simp [hdir, isInitOp]
    · intro hdir2 _
      exact absurd hdir hdir2
    · intro e hre
      have h := mainTry_read_fail_absent d sp w.fs w
        [Event.msgOut (msgNotFound d)] e hre
      exact ⟨h.1 (by simp), h.2.1 (by simp), h.2.2 (by simp)⟩
    · intro c hc
      have h := mainTry_connect_fail_absent d sp w.fs w
        [Event.msgOut (msgNotFound d)] c hc
      exact ⟨h.1 (by simp), h.2 (by simp)⟩
    · intro c he
      exact mainTry_exec_fail_absent d sp w.fs w
        [Event.msgOut (msgNotFound d)] c he (by simp)
  · cases hmk : w.makedirsOk
    · have hm2 : mainInit d sp w =
          { exitCode := 1, fs := w.fs,
            trace := [Event.msgOut (msgNotFound d),
              Event.opMakedirs (dirname d),
              Event.msgErr (msgMkdirErr (dirname d))] } := by
        simp [mainInit, hdir, hmk]
      rw [hm2]
      refine ⟨?_, ?_, ?_, ?_, ?_⟩
      · intro hso
        obtain ⟨hmk2, -, -, -, -⟩ := successOracles_parts hso
        rcases hmk2 with h | h
        · exact absurd h hdir
        · rw [hmk] at h
          exact absurd h (by simp)
      · intro _ _
        exact ⟨by simp, by simp, by simp, by simp⟩
      · intro e _
        exact ⟨by simp, by simp, by simp⟩
      · intro c _
        exact ⟨by simp, by simp⟩
      · intro c _
        simp
    · have hm2 : mainInit d sp w =
          mainTry d sp (fsMakedirs w.fs (mkChain (dirname d))) w
            [Event.msgOut (msgNotFound d), Event.opMakedirs (dirname d),
              Event.msgOut (msgEnsured (dirname d))] := by
        simp [mainInit, hdir, hmk]
      rw [hm2]
      refine ⟨?_, ?_, ?_, ?_, ?_⟩
      · intro hso
        obtain ⟨-, ⟨s, hre⟩, hc, he, hcm⟩ := successOracles_parts hso
        rw [mainTry_success_filter _ _ _ w _ s hre hc he hcm]
        simp [hdir, isInitOp]
      · intro _ hmk2
        exact absurd hmk2 (by simp)
      · intro e hre
        have h := mainTry_read_fail_absent d sp
          (fsMakedirs w.fs (mkChain (dirname d))) w
          [Event.msgOut (msgNotFound d), Event.opMakedirs (dirname d),
            Event.msgOut (msgEnsured (dirname d))] e hre
        exact ⟨h.1 (by simp), h.2.1 (by simp), h.2.2 (by simp)⟩
      · intro c hc
        have h := mainTry_connect_fail_absent d sp
          (fsMakedirs w.fs (mkChain (dirname d))) w
          [Event.msgOut (msgNotFound d), Event.opMakedirs (dirname d),
            Event.msgOut (msgEnsured (dirname d))] c hc
        exact ⟨h.1 (by simp), h.2 (by simp)⟩
      · intro c he
        exact mainTry_exec_fail_absent d sp
          (fsMakedirs w.fs (mkChain (dirname d))) w
          [Event.msgOut (msgNotFound d), Event.opMakedirs (dirname d),
            Event.msgOut (msgEnsured (dirname d))] c he (by simp)

/-- Witness for C7 at a concrete world: a fully successful run with a
directory part shows exactly the six operations in order. -/
theorem linear_step_order_witness :
    ("data/app.db" : String).isEmpty = false ∧
    ("s.sql" : String).isEmpty = false ∧
    fsExists wAllOk.fs "data/app.db" = false ∧
    successOracles wAllOk "data/app.db" = true ∧
    (main (some "data/app.db") (some "s.sql") wAllOk).trace.filter isInitOp =
      (if dirname "data/app.db" = "" then []
        else [Event.opMakedirs (dirname "data/app.db")]) ++
        [Event.opRead "s.sql", Event.opConnect "data/app.db", Event.opExec,
          Event.opCommit, Event.opClose] :=
  ⟨rfl, rfl, by decide, by decide,
    (linear_step_order "data/app.db" "s.sql" wAllOk rfl rfl (by decide)).1
      (by decide)⟩

/-- C10: Frame property of failure cleanup. On every run, any object at a
path other than the database path that was present initially is still
present at the end (only the database path is ever deleted); and a parent
directory created by a successful `os.makedirs` during the run is still
present at the end, even when the run later fails. -/
theorem failure_frame (dbO spO : Option String) (w : World) :
    (∀ p, p ≠ dbO.getD "" → fsExists w.fs p = true →
      fsExists (main dbO spO w).fs p = true) ∧
    (∀ q, q ≠ dbO.getD "" → w.makedirsOk = true →
      Event.opMakedirs q ∈ (main dbO spO w).trace →
      fsExists (main dbO spO w).fs q = true) := by
  cases hdb : pyFalsy dbO
  · cases hsp : pyFalsy spO
    · cases hex : fsExists w.fs (dbO.getD "")
      · have hmain : main dbO spO w = mainInit (dbO.getD "") (spO.getD "") w := by
          simp [main, hdb, hsp, hex]
        rw [hmain]
        by_cases hdir : dirname (dbO.getD "") = ""
        · have hm2 : mainInit (dbO.getD "") (spO.getD "") w =
              mainTry (dbO.getD "") (spO.getD "") w.fs w
                [Event.msgOut (msgNotFound (dbO.getD ""))] := by
            simp [mainInit, hdir]
          rw [hm2]
          constructor
          · intro p hp hfs
            exact mainTry_frame _ _ w.fs w _ (Ne.symm hp) hfs
          · intro q hq hmkT hm
            have h2 := opMakedirs_mem_mainTry _ _ q w.fs w _ hm
            simp at h2
        · cases hmk : w.makedirsOk
          · have hm2 : mainInit (dbO.getD "") (spO.getD "") w =
                { exitCode := 1, fs := w.fs,
                  trace := [Event.msgOut (msgNotFound (dbO.getD "")),
                    Event.opMakedirs (dirname (dbO.getD "")),
                    Event.msgErr (msgMkdirErr (dirname (dbO.getD "")))] } := by
              simp [mainInit, hdir, hmk]
            rw [hm2]
            constructor
            · intro p hp hfs
              exact hfs
            · intro q hq hmkT hm
              exact absurd hmkT (by simp)
          · have hm2 : mainInit (dbO.getD "") (spO.getD "") w =
                mainTry (dbO.getD "") (spO.getD "")
                  (fsMakedirs w.fs (mkChain (dirname (dbO.getD "")))) w
                  [Event.msgOut (msgNotFound (dbO.getD "")),
                    Event.opMakedirs (dirname (dbO.getD "")),
                    Event.msgOut (msgEnsured (dirname (dbO.getD "")))] := by
              simp [mainInit, hdir, hmk]
            rw [hm2]
            constructor
            · intro p hp hfs
              exact mainTry_frame _ _ _ w _ (Ne.symm hp)
                (fsExists_makedirs_mono w.fs _ hfs)
            · intro q hq hmkT hm
              have h2 := opMakedirs_mem_mainTry _ _ q _ w _ hm
              simp at h2
              subst h2
              exact mainTry_frame _ _ _ w _ (Ne.symm hq)
                (fsExists_makedirs_of_mem w.fs (mem_mkChain_self hdir))
      · have hmain : main dbO spO w =
            { exitCode := 0, fs := w.fs,
              trace := [Event.msgOut (msgExists (dbO.getD ""))] } := by
          simp [main, hdb, hsp, hex]
        rw [hmain]
        exact ⟨fun p hp hfs => hfs, fun q hq hmkT hm => by simp at hm⟩
    · have hmain : main dbO spO w =
          { exitCode := 1, fs := w.fs,
            trace := [Event.msgErr msgNoSchemaPath] } := by
        simp [main, hdb, hsp]
      rw [hmain]
      exact ⟨fun p hp hfs => hfs, fun q hq hmkT hm => by simp at hm⟩
  · have hmain : main dbO spO w =
        { exitCode := 1, fs := w.fs, trace := [Event.msgErr msgNoDbPath] } := by
      simp [main, hdb]
    rw [hmain]
    exact ⟨fun p hp hfs => hfs, fun q hq hmkT hm => by simp at hm⟩

/-- Witness for C10 at a concrete world: a run that fails at script
execution keeps the unrelated file and leaves the freshly created parent
directory behind. -/
theorem failure_frame_witness :
    fsExists (main (some "data/app.db") (some "s.sql") wFrame).fs "keep.txt"
      = true ∧
    fsExists (main (some "data/app.db") (some "s.sql") wFrame).fs "data"
      = true :=
  ⟨(failure_frame (some "data/app.db") (some "s.sql") wFrame).1 "keep.txt"
      (by decide) (by decide),
    (failure_frame (some "data/app.db") (some "s.sql") wFrame).2 "data"
      (by decide) rfl (by decide)⟩

end InitSqlite
